import Mathlib

/-!
# registryauth: the listing refresh pipeline (`auth/listing.go`)

A shallow embedding of `Lister.getRepoInfo`, `Lister.getCatalog`,
`Lister.getRepositories` and the background loop of `Lister.start`.

Modelling conventions.

* A Go `error` is its message (`String`); a Go `(value, error)` pair is an
  `Except String value`.
* `*RepositoryList` is `Option RepositoryList` (`nil` is `none`); a slice is a
  `List` (a nil slice and an empty slice are both `[]`).
* Everything outside the process (the token provider, the registry reached over
  HTTP, the clock, the ticker) is a deterministic function of an explicit world
  state `W`, threaded through every call, so that two calls with the same
  arguments may answer differently.
* Every operation also returns the sequence of externally visible actions it
  performed (`Event`), in program order.
-/

namespace Registryauth

/-! ## Data model -/

/-- Go `type Repository struct { Name string; Tags []string }`. -/
structure Repository where
  Name : String
  Tags : List String
deriving DecidableEq, Repr

/-- Go `type RepositoryList struct { Repositories []*Repository }`. -/
structure RepositoryList where
  Repositories : List Repository
deriving DecidableEq, Repr

/-- Go `type Catalog struct { Repositories []string }`. -/
structure Catalog where
  Repositories : List String
deriving DecidableEq, Repr

/-- The fields of `token.ResourceActions` that `getCatalog` fills in. -/
structure ResourceActions where
  Typ : String
  Name : String
  Actions : List String
deriving DecidableEq, Repr

/-- An `http.Request` as far as this file uses one: method, URL, headers. -/
structure Request where
  Method : String
  URL : String
  Header : List (String × String)
deriving DecidableEq, Repr

/-- An `http.Response`: the status code and what `io.ReadAll(resp.Body)` will
give (the bytes, or a read error). -/
structure Response where
  StatusCode : Nat
  Body : Except String String

/-- Externally visible actions, recorded in program order. -/
inductive Event where
  | tokenRequest (scopes : List String)
  | newRequest (method url : String)
  | httpDo (req : Request)
  | logPrintf (msg : String)
  | timeNow
  | tick
deriving DecidableEq, Repr

/-- The collaborators of the Lister that are not fields of it: the flags
`RegistryHost` and `RefreshInterval`, the HTTP transport, URL parsing inside
`http.NewRequest`, `json.Unmarshal` at the two target types, `isScopePublic`,
the clock and the ticker channel. -/
structure Env (W : Type) where
  RegistryHost : String
  /-- The flag `*RefreshInterval`, a `time.Duration`: any integer, zero and
  negative values included. -/
  RefreshInterval : Int
  /-- Whether `url.Parse` inside `http.NewRequest` accepts the URL. -/
  validURL : String → Bool
  /-- The method `httpClient.Do`. -/
  httpDo : Request → W → Except String Response × W
  /-- The call `json.Unmarshal(body, &Catalog{})`. -/
  unmarshalCatalog : String → Except String Catalog
  /-- The call `json.Unmarshal(body, &Repository{})`. -/
  unmarshalRepository : String → Except String Repository
  /-- The scope filter `isScopePublic(prefixes, resourceActions)`. -/
  isScopePublic : List String → ResourceActions → Bool
  /-- The call `time.Now()`. -/
  timeNow : W → Nat × W
  /-- What one receive from the channel `time.Tick(*RefreshInterval)` does to
  the world when the ticker is live, that is when the interval is positive.
  For an interval `<= 0` the channel is nil and there is no receive: see
  `taskStep`. -/
  awaitTick : W → W

/-- Go `type Lister struct` without the template set: the token provider, the
public prefixes, the published repository list and the last poll time. -/
structure Lister (W : Type) where
  TokenProvider : List String → W → Except String String × W
  PublicPrefixes : List String
  repositories : Option RepositoryList
  lastPoll : Nat

/-- What an operation hands back: its Go return value, the world after it and
the actions it performed. -/
structure Out (W : Type) (α : Type) where
  val : α
  world : W
  events : List Event

/-! ## Library calls -/

/-- The call `http.NewRequest(method, url, nil)`: fails when the URL does not
parse, otherwise a request with no headers. -/
def newRequest {W : Type} (env : Env W) (method url : String) : Except String Request :=
  if env.validURL url then .ok { Method := method, URL := url, Header := [] }
  else .error "parse error"

/-- The method `Header.Set(key, value)`: replaces the values stored under the key. -/
def Request.headerSet (r : Request) (key value : String) : Request :=
  { r with Header := (r.Header.filter (fun kv => kv.1 != key)) ++ [(key, value)] }

/-! ## `getRepoInfo` (listing.go 157-186) -/

/-- The URL `fmt.Sprintf("%s/v2/%s/tags/list", *RegistryHost, repository)`. -/
def tagsURL {W : Type} (env : Env W) (repository : String) : String :=
  env.RegistryHost ++ "/v2/" ++ repository ++ "/tags/list"

/-- The URL `fmt.Sprintf("%s/v2/_catalog", *RegistryHost)`. -/
def catalogURL {W : Type} (env : Env W) : String :=
  env.RegistryHost ++ "/v2/_catalog"

/-- The method `Lister.getRepoInfo`. -/
def getRepoInfo {W : Type} (env : Env W) (s : Lister W) (repository : String) (w : W) :
    Out W (Except String Repository) :=
  match s.TokenProvider [repository] w with
  | (.error _, w1) =>
    ⟨.error "error obtaining access token", w1, [.tokenRequest [repository]]⟩
  | (.ok accessToken, w1) =>
    match newRequest env "GET" (tagsURL env repository) with
    | .error _ =>
      ⟨.error "error creating request", w1,
        [.tokenRequest [repository], .newRequest "GET" (tagsURL env repository)]⟩
    | .ok getRequest =>
      let getRequest := getRequest.headerSet "Authorization" ("Bearer " ++ accessToken)
      match env.httpDo getRequest w1 with
      | (.error _, w2) =>
        ⟨.error "unable to perform request", w2,
          [.tokenRequest [repository], .newRequest "GET" (tagsURL env repository),
            .httpDo getRequest]⟩
      | (.ok resp, w2) =>
        match resp.Body with
        | .error _ =>
          ⟨.error "unable to read body", w2,
            [.tokenRequest [repository], .newRequest "GET" (tagsURL env repository),
              .httpDo getRequest]⟩
        | .ok listBody =>
          match env.unmarshalRepository listBody with
          | .error _ =>
            ⟨.error "unable to unmarshall response", w2,
              [.tokenRequest [repository], .newRequest "GET" (tagsURL env repository),
                .httpDo getRequest]⟩
          | .ok list =>
            ⟨.ok { list with Name := repository }, w2,
              [.tokenRequest [repository], .newRequest "GET" (tagsURL env repository),
                .httpDo getRequest]⟩

/-! ## `getCatalog` (listing.go 188-226) -/

/-- The `ResourceActions` value built at listing.go 217-221. -/
def pullScope (name : String) : ResourceActions :=
  { Typ := "repository", Name := name, Actions := ["pull"] }

/-- The loop at listing.go 216-224: walk the decoded names in order and append
those the scope filter accepts. -/
def publicNames {W : Type} (env : Env W) (s : Lister W) (names : List String) : List String :=
  names.foldl
    (fun publicRepositories name =>
      if env.isScopePublic s.PublicPrefixes (pullScope name) then publicRepositories ++ [name]
      else publicRepositories)
    []

/-- The method `Lister.getCatalog`. -/
def getCatalog {W : Type} (env : Env W) (s : Lister W) (w : W) :
    Out W (Except String (List String)) :=
  match s.TokenProvider [] w with
  | (.error _, w1) =>
    ⟨.error "error obtaining access token", w1, [.tokenRequest []]⟩
  | (.ok accessToken, w1) =>
    match newRequest env "GET" (catalogURL env) with
    | .error _ =>
      ⟨.error "error creating request", w1,
        [.tokenRequest [], .newRequest "GET" (catalogURL env)]⟩
    | .ok getRequest =>
      let getRequest := getRequest.headerSet "Authorization" ("Bearer " ++ accessToken)
      match env.httpDo getRequest w1 with
      | (.error _, w2) =>
        ⟨.error "unable to perform request", w2,
          [.tokenRequest [], .newRequest "GET" (catalogURL env), .httpDo getRequest]⟩
      | (.ok resp, w2) =>
        match resp.Body with
        | .error _ =>
          ⟨.error "unable to read body", w2,
            [.tokenRequest [], .newRequest "GET" (catalogURL env), .httpDo getRequest]⟩
        | .ok listBody =>
          match env.unmarshalCatalog listBody with
          | .error _ =>
            ⟨.error "unable to unmarshall response", w2,
              [.tokenRequest [], .newRequest "GET" (catalogURL env), .httpDo getRequest]⟩
          | .ok list =>
            ⟨.ok (publicNames env s list.Repositories), w2,
              [.tokenRequest [], .newRequest "GET" (catalogURL env), .httpDo getRequest]⟩

/-! ## `getRepositories` (listing.go 140-155) -/

/-- The first return value of a Go call whose error may be set: the nil slice
when the call failed. -/
def namesOrNil (r : Except String (List String)) : List String :=
  match r with
  | .ok names => names
  | .error _ => []

/-- The loop at listing.go 148-153, from a given position: one `getRepoInfo`
per remaining name, appending the result when the call succeeded. -/
def fetchAll {W : Type} (env : Env W) (s : Lister W) :
    List String → RepositoryList → W → Out W RepositoryList
  | [], repositoryList, w => ⟨repositoryList, w, []⟩
  | name :: rest, repositoryList, w =>
    let r := getRepoInfo env s name w
    let next : RepositoryList :=
      match r.val with
      | .ok repoInfo => { Repositories := repositoryList.Repositories ++ [repoInfo] }
      | .error _ => repositoryList
    let k := fetchAll env s rest next r.world
    ⟨k.val, k.world, r.events ++ k.events⟩

/-- The method `Lister.getRepositories`. The error of `getCatalog` is
overwritten by the error of `getRepoInfo("moo")` before it is tested. -/
def getRepositories {W : Type} (env : Env W) (s : Lister W) (w : W) :
    Out W (Option RepositoryList) :=
  let c := getCatalog env s w
  let publicRepositories := namesOrNil c.val
  let m := getRepoInfo env s "moo" c.world
  match m.val with
  | .error err =>
    ⟨none, m.world, c.events ++ m.events ++ [.logPrintf ("Error: " ++ err)]⟩
  | .ok _ =>
    let l := fetchAll env s publicRepositories { Repositories := [] } m.world
    ⟨some l.val, l.world, c.events ++ m.events ++ l.events⟩

/-! ## One refresh cycle of `start` (listing.go 91-92 and 94-95) -/

/-- One refresh cycle: `s.repositories = s.getRepositories()` followed by
`s.lastPoll = time.Now()`. -/
def refreshCycle {W : Type} (env : Env W) (s : Lister W) (w : W) : Out W (Lister W) :=
  let r := getRepositories env s w
  let s1 := { s with repositories := r.val }
  let t := env.timeNow r.world
  ⟨{ s1 with lastPoll := t.1 }, t.2, r.events ++ [.timeNow]⟩

/-! ## The background task of `start` (listing.go 89-98), statement by statement -/

/-- The error of a Go `(value, error)` pair: `none` is the nil error. -/
def errOf {α : Type} (r : Except String α) : Option String :=
  match r with
  | .ok _ => none
  | .error e => some e

/-- Where the background task stands, with the local variables of
`getRepositories` that are live there.

* `catalog`: line 91 or 94 has called `getRepositories`, which is at line 141;
* `moo`: line 142, holding `publicRepositories` and the `err` of line 141;
* `test`: line 143, `err` now being that of the `moo` lookup;
* `logError`: line 144; `alloc`: line 147;
* `loop`: the loop head at line 148 and the call at line 149;
* `append`: line 150, holding the result of the call at line 149;
* `ret`: the `return` at line 145 or 154, whose value line 91 or 94 stores in
  `s.repositories`;
* `poll`: line 92 or 95; `wait`: the receive from the ticker at line 93. -/
inductive Control where
  | catalog
  | moo (publicRepositories : List String) (err : Option String)
  | test (publicRepositories : List String) (err : Option String)
  | logError (err : String)
  | alloc (publicRepositories : List String)
  | loop (publicRepositories : List String) (index : Nat) (repositoryList : RepositoryList)
  | append (publicRepositories : List String) (index : Nat) (repositoryList : RepositoryList)
      (fetched : Except String Repository)
  | ret (result : Option RepositoryList)
  | poll
  | wait

/-- A state of the background task: the Lister that request handlers read, the
world, the control point and the actions performed so far. -/
structure TaskState (W : Type) where
  lister : Lister W
  world : W
  control : Control
  trace : List Event

/-- The state in which `start` launches the task. -/
def TaskState.initial {W : Type} (s : Lister W) (w : W) : TaskState W :=
  { lister := s, world := w, control := .catalog, trace := [] }

/-- The pair that `ListingIndex` reads: `s.repositories` and `s.lastPoll`. -/
def TaskState.snapshot {W : Type} (σ : TaskState W) : Option RepositoryList × Nat :=
  (σ.lister.repositories, σ.lister.lastPoll)

/-- One statement of the background task, the receive at line 93 being taken
to deliver a tick. Whether it does is the matter of `taskStep`. -/
def step {W : Type} (env : Env W) (σ : TaskState W) : TaskState W :=
  match σ.control with
  | .catalog =>
    let c := getCatalog env σ.lister σ.world
    { σ with world := c.world, control := .moo (namesOrNil c.val) (errOf c.val),
             trace := σ.trace ++ c.events }
  | .moo publicRepositories _ =>
    let m := getRepoInfo env σ.lister "moo" σ.world
    { σ with world := m.world, control := .test publicRepositories (errOf m.val),
             trace := σ.trace ++ m.events }
  | .test _ (some err) => { σ with control := .logError err }
  | .test publicRepositories none => { σ with control := .alloc publicRepositories }
  | .logError err =>
    { σ with control := .ret none, trace := σ.trace ++ [.logPrintf ("Error: " ++ err)] }
  | .alloc publicRepositories =>
    { σ with control := .loop publicRepositories 0 { Repositories := [] } }
  | .loop publicRepositories index repositoryList =>
    match publicRepositories[index]? with
    | none => { σ with control := .ret (some repositoryList) }
    | some name =>
      let r := getRepoInfo env σ.lister name σ.world
      { σ with world := r.world,
               control := .append publicRepositories index repositoryList r.val,
               trace := σ.trace ++ r.events }
  | .append publicRepositories index repositoryList (.ok repoInfo) =>
    { σ with control := .loop publicRepositories (index + 1)
               { Repositories := repositoryList.Repositories ++ [repoInfo] } }
  | .append publicRepositories index repositoryList (.error _) =>
    { σ with control := .loop publicRepositories (index + 1) repositoryList }
  | .ret result =>
    { σ with lister := { σ.lister with repositories := result }, control := .poll }
  | .poll =>
    let t := env.timeNow σ.world
    { σ with lister := { σ.lister with lastPoll := t.1 }, world := t.2, control := .wait,
             trace := σ.trace ++ [.timeNow] }
  | .wait =>
    { σ with world := env.awaitTick σ.world, control := .catalog,
             trace := σ.trace ++ [.tick] }

/-- The state after `n` statements, every receive at line 93 delivering. -/
def run {W : Type} (env : Env W) : Nat → TaskState W → TaskState W
  | 0, σ => σ
  | n + 1, σ => run env n (step env σ)

/-- One move of the background task with the ticker of line 93 taken into
account. `time.Tick(d)` returns a nil channel when `d <= 0`, and `for range`
over a nil channel never receives: at the wait the task then stays where it is
for ever. With a positive interval the receive delivers, and everywhere else
the task executes its next statement. -/
def taskStep {W : Type} (env : Env W) (σ : TaskState W) : TaskState W :=
  match σ.control with
  | .wait => if 0 < env.RefreshInterval then step env σ else σ
  | _ => step env σ

/-- The state of the background task after `n` moves. -/
def taskRun {W : Type} (env : Env W) : Nat → TaskState W → TaskState W
  | 0, σ => σ
  | n + 1, σ => taskRun env n (taskStep env σ)

/-! ## The scope filter -/

/-- Modelled from the spec: `isScopePublic` is defined outside listing.go. By
the ScopeFilter contract (spec 4.2) it is true iff the resource type is
"repository" and the name starts with at least one configured public prefix;
with no prefixes it is false for every name. -/
def isScopePublic (prefixes : List String) (ra : ResourceActions) : Bool :=
  ra.Typ == "repository" && prefixes.any (fun p => p.data.isPrefixOf ra.Name.data)

/-! ## A concrete registry for the examples

The world is a clock (`Nat`): every token request, HTTP exchange and clock
reading takes one unit, and the refresh interval is sixty units. -/

/-- Body `{"repositories":["pub/a","pub/b","priv/c"]}`. -/
def bodyCatalogABC : String :=
  "\x7b\"repositories\":[\"pub/a\",\"pub/b\",\"priv/c\"]\x7d"

/-- Body `{"repositories":["pub/a","pub/b"]}`. -/
def bodyCatalogAB : String := "\x7b\"repositories\":[\"pub/a\",\"pub/b\"]\x7d"

/-- Body `{"repositories":["pub/b"]}`. -/
def bodyCatalogB : String := "\x7b\"repositories\":[\"pub/b\"]\x7d"

/-- Body `{"repositories":[]}`. -/
def bodyCatalogNone : String := "\x7b\"repositories\":[]\x7d"

/-- Body `{"name":"pub/b","tags":["v1","v2"]}`. -/
def bodyTagsB : String := "\x7b\"name\":\"pub/b\",\"tags\":[\"v1\",\"v2\"]\x7d"

/-- Body `{"name":"mirror/x","tags":["v9"]}`: a tag list that names another
repository than the one asked for. -/
def bodyTagsOther : String := "\x7b\"name\":\"mirror/x\",\"tags\":[\"v9\"]\x7d"

/-- Body `{"errors":[{"code":"NAME_UNKNOWN"}]}`: the JSON error document a
registry sends with status 404. -/
def bodyUnknown : String := "\x7b\"errors\":[\x7b\"code\":\"NAME_UNKNOWN\"\x7d]\x7d"

/-- Body `404 page not found`: the plain-text answer of a Go HTTP mux. -/
def bodyPlain404 : String := "404 page not found"

/-- What `json.Unmarshal(body, &Catalog{})` gives on the bodies above: the
`repositories` member when there is one, the zero Catalog for a JSON object
without it, an error for text that is not JSON. -/
def demoUnmarshalCatalog (body : String) : Except String Catalog :=
  if body = bodyCatalogABC then .ok { Repositories := ["pub/a", "pub/b", "priv/c"] }
  else if body = bodyCatalogAB then .ok { Repositories := ["pub/a", "pub/b"] }
  else if body = bodyCatalogB then .ok { Repositories := ["pub/b"] }
  else if body = bodyCatalogNone then .ok { Repositories := [] }
  else if body = bodyUnknown then .ok { Repositories := [] }
  else .error "invalid character"

/-- What `json.Unmarshal(body, &Repository{})` gives on the bodies above: the
`name` and `tags` members when present, the zero Repository for a JSON object
without them, an error for text that is not JSON. -/
def demoUnmarshalRepository (body : String) : Except String Repository :=
  if body = bodyTagsB then .ok { Name := "pub/b", Tags := ["v1", "v2"] }
  else if body = bodyTagsOther then .ok { Name := "mirror/x", Tags := ["v9"] }
  else if body = bodyUnknown then .ok { Name := "", Tags := [] }
  else .error "invalid character"

/-- The environment of the examples. `serve now url` is the answer of the
registry to a GET of `url` at time `now` (`none`: the connection fails). -/
def demoEnv (serve : Nat → String → Option Response) : Env Nat where
  RegistryHost := "http://localhost:8080"
  RefreshInterval := 60
  validURL := fun _ => true
  httpDo := fun req now =>
    match serve now req.URL with
    | some resp => (.ok resp, now + 1)
    | none => (.error "connection refused", now + 1)
  unmarshalCatalog := demoUnmarshalCatalog
  unmarshalRepository := demoUnmarshalRepository
  isScopePublic := isScopePublic
  timeNow := fun now => (now, now + 1)
  awaitTick := fun now => now + 60

/-- The environment of the examples started with `-refresh-interval=0`. -/
def demoEnvNoTicker (serve : Nat → String → Option Response) : Env Nat :=
  { demoEnv serve with RefreshInterval := 0 }

/-- A Lister for the examples: the token provider refuses the scope lists for
which `deny` holds and otherwise issues the token `t`. -/
def demoLister (deny : List String → Bool) (prefixes : List String)
    (repositories : Option RepositoryList) (lastPoll : Nat) : Lister Nat where
  TokenProvider := fun scopes now =>
    if deny scopes then (.error "denied", now + 1) else (.ok "t", now + 1)
  PublicPrefixes := prefixes
  repositories := repositories
  lastPoll := lastPoll

/-- A registry whose catalog document is `catalogBody`. The tag list of `pub/a`
is broken (status 500, plain text), `pub/b` has tags v1 and v2, and every other
tag list, that of `moo` included, is answered 404 with the body `unknownBody`. -/
def serveDemo (catalogBody unknownBody : String) (_now : Nat) (url : String) :
    Option Response :=
  if url = "http://localhost:8080/v2/_catalog" then
    some { StatusCode := 200, Body := .ok catalogBody }
  else if url = "http://localhost:8080/v2/pub/a/tags/list" then
    some { StatusCode := 500, Body := .ok bodyPlain404 }
  else if url = "http://localhost:8080/v2/pub/b/tags/list" then
    some { StatusCode := 200, Body := .ok bodyTagsB }
  else some { StatusCode := 404, Body := .ok unknownBody }

/-- A registry whose catalog changes: it lists `pub/b` before time 30 and
nothing afterwards. -/
def serveChanging (now : Nat) (url : String) : Option Response :=
  if now < 30 then serveDemo bodyCatalogB bodyUnknown now url
  else serveDemo bodyCatalogNone bodyUnknown now url

/-- A registry that answers every GET with status 404 and the JSON error
document. -/
def serveNotFound (_now : Nat) (_url : String) : Option Response :=
  some { StatusCode := 404, Body := .ok bodyUnknown }

/-! ## Bookkeeping for the proofs about the task -/

/-- The value that the call of `getRepositories` in progress will return and
the world it will leave, when it is resumed at a control point in a world;
`none` at the two control points outside the call. -/
def resume {W : Type} (env : Env W) (s : Lister W) :
    Control → W → Option (Option RepositoryList × W)
  | .catalog, w => some ((getRepositories env s w).val, (getRepositories env s w).world)
  | .moo publicRepositories _, w =>
    match (getRepoInfo env s "moo" w).val with
    | .error _ => some (none, (getRepoInfo env s "moo" w).world)
    | .ok _ =>
      some (some (fetchAll env s publicRepositories { Repositories := [] }
                    (getRepoInfo env s "moo" w).world).val,
            (fetchAll env s publicRepositories { Repositories := [] }
                    (getRepoInfo env s "moo" w).world).world)
  | .test _ (some _), w => some (none, w)
  | .test publicRepositories none, w =>
    some (some (fetchAll env s publicRepositories { Repositories := [] } w).val,
          (fetchAll env s publicRepositories { Repositories := [] } w).world)
  | .logError _, w => some (none, w)
  | .alloc publicRepositories, w =>
    some (some (fetchAll env s publicRepositories { Repositories := [] } w).val,
          (fetchAll env s publicRepositories { Repositories := [] } w).world)
  | .loop publicRepositories index repositoryList, w =>
    some (some (fetchAll env s (publicRepositories.drop index) repositoryList w).val,
          (fetchAll env s (publicRepositories.drop index) repositoryList w).world)
  | .append publicRepositories index repositoryList (.ok repoInfo), w =>
    some (some (fetchAll env s (publicRepositories.drop (index + 1))
                  { Repositories := repositoryList.Repositories ++ [repoInfo] } w).val,
          (fetchAll env s (publicRepositories.drop (index + 1))
                  { Repositories := repositoryList.Repositories ++ [repoInfo] } w).world)
  | .append publicRepositories index repositoryList (.error _), w =>
    some (some (fetchAll env s (publicRepositories.drop (index + 1)) repositoryList w).val,
          (fetchAll env s (publicRepositories.drop (index + 1)) repositoryList w).world)
  | .ret result, w => some (result, w)
  | .poll, _ => none
  | .wait, _ => none

/-- The state `σ` belongs to the refresh cycle that started with Lister `s` in
world `w`: inside the call the Lister is still `s` and the call is heading for
the result of `getRepositories env s w`; after the first write the list is the
new one and the poll time the old one; after the second write the Lister is
the one `refreshCycle` computes. -/
def CycleInv {W : Type} (env : Env W) (s : Lister W) (w : W) (σ : TaskState W) : Prop :=
  match σ.control with
  | .wait => σ.lister = (refreshCycle env s w).val
  | .poll =>
    σ.lister = { s with repositories := (getRepositories env s w).val } ∧
    σ.world = (getRepositories env s w).world
  | c =>
    σ.lister = s ∧
    resume env s c σ.world
      = some ((getRepositories env s w).val, (getRepositories env s w).world)

/-- The number of refresh cycles begun in a trace. A cycle begins with the call
of `getCatalog`, whose first action is the token request without scopes; every
other token request of the task carries one scope. -/
def cyclesStarted (tr : List Event) : Nat := tr.count (.tokenRequest [])

/-- The number of refresh cycles published in a trace: the `time.Now()` of line
92 or 95 is the last action of a cycle and is made nowhere else. -/
def cyclesPublished (tr : List Event) : Nat := tr.count .timeNow

/-- The number of ticks of the refresh interval received in a trace. -/
def ticksReceived (tr : List Event) : Nat := tr.count .tick

/-- The counting invariant of the task: about to begin a cycle, as many cycles
were begun and published as ticks received; inside a cycle, one more cycle was
begun; waiting on the ticker, one more cycle was begun and published than
ticks received. -/
def CountInv {W : Type} (σ : TaskState W) : Prop :=
  match σ.control with
  | .catalog =>
    cyclesStarted σ.trace = ticksReceived σ.trace ∧
    cyclesPublished σ.trace = ticksReceived σ.trace
  | .wait =>
    cyclesStarted σ.trace = ticksReceived σ.trace + 1 ∧
    cyclesPublished σ.trace = ticksReceived σ.trace + 1
  | _ =>
    cyclesStarted σ.trace = ticksReceived σ.trace + 1 ∧
    cyclesPublished σ.trace = ticksReceived σ.trace

/-! ## Basic facts -/

theorem foldl_public_eq {W : Type} (env : Env W) (s : Lister W) (names acc : List String) :
    names.foldl
      (fun publicRepositories name =>
        if env.isScopePublic s.PublicPrefixes (pullScope name) then publicRepositories ++ [name]
        else publicRepositories)
      acc
    = acc ++ names.filter (fun name => env.isScopePublic s.PublicPrefixes (pullScope name)) := by
  induction names generalizing acc with
  | nil => simp
  | cons name rest ih =>
    simp only [List.foldl_cons, ih, List.filter_cons]
    split <;> simp

/-- The filter loop of `getCatalog` keeps exactly the names the scope filter
accepts, in catalog order. -/
theorem publicNames_eq_filter {W : Type} (env : Env W) (s : Lister W) (names : List String) :
    publicNames env s names
      = names.filter (fun name => env.isScopePublic s.PublicPrefixes (pullScope name)) := by
  simp [publicNames, foldl_public_eq]

/-- The function `getRepoInfo` reads only the token provider of the Lister. -/
theorem getRepoInfo_congr {W : Type} (env : Env W) (s t : Lister W) (repository : String)
    (w : W) (h : s.TokenProvider = t.TokenProvider) :
    getRepoInfo env s repository w = getRepoInfo env t repository w := by
  simp only [getRepoInfo, h]

/-- The function `getCatalog` reads only the token provider and the prefixes. -/
theorem getCatalog_congr {W : Type} (env : Env W) (s t : Lister W) (w : W)
    (h : s.TokenProvider = t.TokenProvider) (hp : s.PublicPrefixes = t.PublicPrefixes) :
    getCatalog env s w = getCatalog env t w := by
  simp only [getCatalog, publicNames, h, hp]

theorem fetchAll_congr {W : Type} (env : Env W) (s t : Lister W)
    (h : s.TokenProvider = t.TokenProvider) (names : List String) (acc : RepositoryList)
    (w : W) : fetchAll env s names acc w = fetchAll env t names acc w := by
  induction names generalizing acc w with
  | nil => rfl
  | cons name rest ih => simp only [fetchAll, getRepoInfo_congr env s t name w h, ih]

/-- The function `getRepositories` does not read the published snapshot. -/
theorem getRepositories_congr {W : Type} (env : Env W) (s t : Lister W) (w : W)
    (h : s.TokenProvider = t.TokenProvider) (hp : s.PublicPrefixes = t.PublicPrefixes) :
    getRepositories env s w = getRepositories env t w := by
  simp only [getRepositories, getCatalog_congr env s t w h hp,
    getRepoInfo_congr env s t "moo" _ h, fetchAll_congr env s t h]

theorem fetchAll_nil {W : Type} (env : Env W) (s : Lister W) (acc : RepositoryList) (w : W) :
    fetchAll env s [] acc w = ⟨acc, w, []⟩ := rfl

/-! ## Token failure (C6) -/

/-- C6: when the token provider returns an error, `getCatalog` and
`getRepoInfo` (for every repository name) return the error "error obtaining
access token" and no value, and the only action performed is the token request
itself: no request is constructed (`newRequest`) or sent (`httpDo`), and the
world is the one the token provider left. -/
theorem token_failure_sends_no_request {W : Type} (env : Env W) (s : Lister W)
    (repository : String) (w : W) :
    (∀ e w1, s.TokenProvider [] w = (.error e, w1) →
      getCatalog env s w
        = ⟨.error "error obtaining access token", w1, [.tokenRequest []]⟩) ∧
    (∀ e w1, s.TokenProvider [repository] w = (.error e, w1) →
      getRepoInfo env s repository w
        = ⟨.error "error obtaining access token", w1, [.tokenRequest [repository]]⟩) := by
  constructor
  · intro e w1 h
    simp [getCatalog, h]
  · intro e w1 h
    simp [getRepoInfo, h]

/-- C6 at a concrete input: a token provider that refuses every scope, asked
at time 0 for the catalog and for `pub/a`. -/
theorem token_failure_sends_no_request_witness :
    (demoLister (fun _ => true) ["pub/"] none 0).TokenProvider [] 0 = (.error "denied", 1) ∧
    (demoLister (fun _ => true) ["pub/"] none 0).TokenProvider ["pub/a"] 0
      = (.error "denied", 1) ∧
    getCatalog (demoEnv serveNotFound) (demoLister (fun _ => true) ["pub/"] none 0) 0
      = ⟨.error "error obtaining access token", 1, [.tokenRequest []]⟩ ∧
    getRepoInfo (demoEnv serveNotFound) (demoLister (fun _ => true) ["pub/"] none 0) "pub/a" 0
      = ⟨.error "error obtaining access token", 1, [.tokenRequest ["pub/a"]]⟩ :=
  ⟨rfl, rfl,
    (token_failure_sends_no_request (demoEnv serveNotFound)
      (demoLister (fun _ => true) ["pub/"] none 0) "pub/a" 0).1 "denied" 1 rfl,
    (token_failure_sends_no_request (demoEnv serveNotFound)
      (demoLister (fun _ => true) ["pub/"] none 0) "pub/a" 0).2 "denied" 1 rfl⟩

/-! ## The requested name wins (C7) -/

/-- C7: when the token is issued, the request is built and performed, the body
is read and decodes to `decoded`, `getRepoInfo r` returns the Repository whose
Name is the requested `r` (whatever `decoded.Name` is) and whose Tags are
`decoded.Tags`. -/
theorem getRepoInfo_keeps_requested_name {W : Type} (env : Env W) (s : Lister W)
    (r accessToken body : String) (w w1 w2 : W) (resp : Response) (decoded : Repository)
    (htoken : s.TokenProvider [r] w = (.ok accessToken, w1))
    (hurl : env.validURL (tagsURL env r) = true)
    (hdo : env.httpDo
        { Method := "GET", URL := tagsURL env r,
          Header := [("Authorization", "Bearer " ++ accessToken)] } w1 = (.ok resp, w2))
    (hread : resp.Body = .ok body)
    (hdecode : env.unmarshalRepository body = .ok decoded) :
    getRepoInfo env s r w
      = ⟨.ok { Name := r, Tags := decoded.Tags }, w2,
          [.tokenRequest [r], .newRequest "GET" (tagsURL env r),
            .httpDo { Method := "GET", URL := tagsURL env r,
                      Header := [("Authorization", "Bearer " ++ accessToken)] }]⟩ := by
  simp [getRepoInfo, htoken, newRequest, hurl, Request.headerSet, hdo, hread, hdecode]

/-- C7 at a concrete input: asked for `pub/z`, the registry answers with a tag
list that names `mirror/x`; the result is named `pub/z`. -/
theorem getRepoInfo_keeps_requested_name_witness :
    demoUnmarshalRepository bodyTagsOther = .ok { Name := "mirror/x", Tags := ["v9"] } ∧
    getRepoInfo (demoEnv (serveDemo bodyCatalogAB bodyTagsOther)) (demoLister (fun _ => false) [] none 0)
        "pub/z" 0
      = ⟨.ok { Name := "pub/z", Tags := ["v9"] }, 2,
          [.tokenRequest ["pub/z"],
            .newRequest "GET" "http://localhost:8080/v2/pub/z/tags/list",
            .httpDo { Method := "GET", URL := "http://localhost:8080/v2/pub/z/tags/list",
                      Header := [("Authorization", "Bearer t")] }]⟩ :=
  ⟨rfl,
    getRepoInfo_keeps_requested_name (demoEnv (serveDemo bodyCatalogAB bodyTagsOther))
      (demoLister (fun _ => false) [] none 0) "pub/z" "t" bodyTagsOther 0 1 2
      { StatusCode := 404, Body := .ok bodyTagsOther } { Name := "mirror/x", Tags := ["v9"] }
      rfl rfl rfl rfl rfl⟩

/-! ## The outcome of `getRepositories` (C10, C1) -/

/-- C10: for every outcome of `getCatalog`, `getRepositories` returns nil
exactly when the lookup `getRepoInfo("moo")` that follows the catalog call
returns an error; and when `getCatalog` fails while that lookup succeeds, the
result is a non-nil list with no repositories. -/
theorem getRepositories_decided_by_moo {W : Type} (env : Env W) (s : Lister W) (w : W) :
    ((getRepositories env s w).val = none ↔
      ∃ e, (getRepoInfo env s "moo" (getCatalog env s w).world).val = .error e) ∧
    (∀ e info, (getCatalog env s w).val = .error e →
      (getRepoInfo env s "moo" (getCatalog env s w).world).val = .ok info →
      (getRepositories env s w).val = some { Repositories := [] }) := by
  constructor
  · unfold getRepositories
    cases hm : (getRepoInfo env s "moo" (getCatalog env s w).world).val with
    | error err => simp [hm]
    | ok info => simp [hm]
  · intro e info hc hm
    unfold getRepositories
    simp [hm, hc, namesOrNil, fetchAll_nil]

/-- C10 at a concrete input: the token provider refuses the catalog scope (no
scopes) only, and the registry answers the `moo` lookup with 404 and a JSON
error document, which decodes. -/
theorem getRepositories_decided_by_moo_witness :
    (getCatalog (demoEnv serveNotFound)
        (demoLister (fun scopes => scopes.isEmpty) ["pub/"] none 0) 0).val
      = .error "error obtaining access token" ∧
    (getRepoInfo (demoEnv serveNotFound)
        (demoLister (fun scopes => scopes.isEmpty) ["pub/"] none 0) "moo" 1).val
      = .ok { Name := "moo", Tags := [] } ∧
    (getRepositories (demoEnv serveNotFound)
        (demoLister (fun scopes => scopes.isEmpty) ["pub/"] none 0) 0).val
      = some { Repositories := [] } :=
  ⟨rfl, rfl,
    (getRepositories_decided_by_moo (demoEnv serveNotFound)
      (demoLister (fun scopes => scopes.isEmpty) ["pub/"] none 0) 0).2
      "error obtaining access token" { Name := "moo", Tags := [] } rfl rfl⟩

/-- C1 as stated fails: the Lister holds a snapshot with `pub/b`, the token
provider refuses every scope, so the catalog step fails; after the cycle the
published snapshot is nil, not the one held before. -/
theorem catalog_failure_drops_snapshot :
    (getCatalog (demoEnv serveNotFound)
        (demoLister (fun _ => true) ["pub/"]
          (some { Repositories := [{ Name := "pub/b", Tags := ["v1", "v2"] }] }) 7) 100).val
      = .error "error obtaining access token" ∧
    (refreshCycle (demoEnv serveNotFound)
        (demoLister (fun _ => true) ["pub/"]
          (some { Repositories := [{ Name := "pub/b", Tags := ["v1", "v2"] }] }) 7)
        100).val.repositories = none ∧
    (refreshCycle (demoEnv serveNotFound)
        (demoLister (fun _ => true) ["pub/"]
          (some { Repositories := [{ Name := "pub/b", Tags := ["v1", "v2"] }] }) 7)
        100).val.repositories
      ≠ (demoLister (fun _ => true) ["pub/"]
          (some { Repositories := [{ Name := "pub/b", Tags := ["v1", "v2"] }] }) 7).repositories :=
  ⟨rfl, rfl, by decide⟩

/-- C1 amended: in a refresh cycle whose catalog step fails, the published
snapshot after the cycle is the value `getRepositories` returned; that value
holds no repositories (it is nil or a list with no entries), and it is the same
whatever snapshot was published before the cycle. -/
theorem catalog_failure_publishes_result {W : Type} (env : Env W) (s : Lister W) (w : W)
    (e : String) (hcatalog : (getCatalog env s w).val = .error e) :
    (refreshCycle env s w).val.repositories = (getRepositories env s w).val ∧
    ((refreshCycle env s w).val.repositories = none ∨
      (refreshCycle env s w).val.repositories = some { Repositories := [] }) ∧
    (∀ previous : Option RepositoryList,
      (refreshCycle env { s with repositories := previous } w).val.repositories
        = (refreshCycle env s w).val.repositories) := by
  refine ⟨rfl, ?_, ?_⟩
  · show (getRepositories env s w).val = none ∨ (getRepositories env s w).val = some _
    unfold getRepositories
    cases hm : (getRepoInfo env s "moo" (getCatalog env s w).world).val with
    | error err => simp [hm]
    | ok info => simp [hm, hcatalog, namesOrNil, fetchAll_nil]
  · intro previous
    show (getRepositories env _ w).val = (getRepositories env s w).val
    rw [getRepositories_congr env { s with repositories := previous } s w rfl rfl]

/-- C1 amended at a concrete input: the Lister holds a snapshot with `pub/b`
and the token provider refuses every scope. -/
theorem catalog_failure_publishes_result_witness :
    (refreshCycle (demoEnv serveNotFound)
        (demoLister (fun _ => true) ["pub/"]
          (some { Repositories := [{ Name := "pub/b", Tags := ["v1", "v2"] }] }) 7)
        100).val.repositories
      = (getRepositories (demoEnv serveNotFound)
          (demoLister (fun _ => true) ["pub/"]
            (some { Repositories := [{ Name := "pub/b", Tags := ["v1", "v2"] }] }) 7)
          100).val :=
  (catalog_failure_publishes_result (demoEnv serveNotFound)
    (demoLister (fun _ => true) ["pub/"]
      (some { Repositories := [{ Name := "pub/b", Tags := ["v1", "v2"] }] }) 7)
    100 "error obtaining access token" rfl).1

/-! ## The status code is not inspected (C5) -/

/-- C5 as stated fails: the registry answers every request with status 404 and
a JSON error document; `getCatalog` succeeds with no names and `getRepoInfo`
succeeds with a Repository without tags. -/
theorem not_found_response_is_accepted :
    (serveNotFound 1 "http://localhost:8080/v2/_catalog").map (fun r => r.StatusCode)
      = some 404 ∧
    (serveNotFound 1 "http://localhost:8080/v2/pub/a/tags/list").map (fun r => r.StatusCode)
      = some 404 ∧
    (getCatalog (demoEnv serveNotFound) (demoLister (fun _ => false) ["pub/"] none 0) 0).val
      = .ok [] ∧
    (getRepoInfo (demoEnv serveNotFound) (demoLister (fun _ => false) ["pub/"] none 0)
        "pub/a" 0).val
      = .ok { Name := "pub/a", Tags := [] } :=
  ⟨rfl, rfl, rfl, rfl⟩

/-- C5 amended: for every response that `httpClient.Do` hands back, whatever
its status code (2xx or not), `getCatalog` and `getRepoInfo` decide by the body
alone. They fail with "unable to read body" when the body cannot be read and
with "unable to unmarshall response" when it does not decode; when it decodes
they succeed, `getCatalog` with the decoded names that pass the scope filter,
`getRepoInfo` with the requested name and the decoded tags. -/
theorem outcome_decided_by_body {W : Type} (env : Env W) (s : Lister W)
    (repository : String) (w : W) :
    (∀ (accessToken : String) (w1 w2 : W) (code : Nat) (received : Except String String),
      s.TokenProvider [] w = (.ok accessToken, w1) →
      env.validURL (catalogURL env) = true →
      env.httpDo
          { Method := "GET", URL := catalogURL env,
            Header := [("Authorization", "Bearer " ++ accessToken)] } w1
        = (.ok { StatusCode := code, Body := received }, w2) →
      (getCatalog env s w).val
        = match received with
          | .error _ => .error "unable to read body"
          | .ok body =>
            match env.unmarshalCatalog body with
            | .error _ => .error "unable to unmarshall response"
            | .ok list =>
              .ok (list.Repositories.filter
                    (fun name => env.isScopePublic s.PublicPrefixes (pullScope name)))) ∧
    (∀ (accessToken : String) (w1 w2 : W) (code : Nat) (received : Except String String),
      s.TokenProvider [repository] w = (.ok accessToken, w1) →
      env.validURL (tagsURL env repository) = true →
      env.httpDo
          { Method := "GET", URL := tagsURL env repository,
            Header := [("Authorization", "Bearer " ++ accessToken)] } w1
        = (.ok { StatusCode := code, Body := received }, w2) →
      (getRepoInfo env s repository w).val
        = match received with
          | .error _ => .error "unable to read body"
          | .ok body =>
            match env.unmarshalRepository body with
            | .error _ => .error "unable to unmarshall response"
            | .ok decoded => .ok { Name := repository, Tags := decoded.Tags }) := by
  constructor
  · intro accessToken w1 w2 code received htoken hurl hdo
    cases received with
    | error e =>
      simp [getCatalog, htoken, newRequest, hurl, Request.headerSet, hdo]
    | ok body =>
      cases hdecode : env.unmarshalCatalog body with
      | error e =>
        simp [getCatalog, htoken, newRequest, hurl, Request.headerSet, hdo, hdecode]
      | ok list =>
        simp [getCatalog, htoken, newRequest, hurl, Request.headerSet, hdo, hdecode,
          publicNames_eq_filter]
  · intro accessToken w1 w2 code received htoken hurl hdo
    cases received with
    | error e =>
      simp [getRepoInfo, htoken, newRequest, hurl, Request.headerSet, hdo]
    | ok body =>
      cases hdecode : env.unmarshalRepository body with
      | error e =>
        simp [getRepoInfo, htoken, newRequest, hurl, Request.headerSet, hdo, hdecode]
      | ok decoded =>
        simp [getRepoInfo, htoken, newRequest, hurl, Request.headerSet, hdo, hdecode]

/-- C5 amended at concrete inputs: a catalog request answered 404 with the JSON
error document succeeds with no names; the tag list of `pub/a` answered 500
with plain text fails at the decode, not at the status. -/
theorem outcome_decided_by_body_witness :
    (getCatalog (demoEnv serveNotFound) (demoLister (fun _ => false) ["pub/"] none 0) 0).val
      = .ok [] ∧
    (getRepoInfo (demoEnv (serveDemo bodyCatalogAB bodyUnknown))
        (demoLister (fun _ => false) ["pub/"] none 0) "pub/a" 0).val
      = .error "unable to unmarshall response" :=
  ⟨(outcome_decided_by_body (demoEnv serveNotFound)
      (demoLister (fun _ => false) ["pub/"] none 0) "pub/a" 0).1
      "t" 1 2 404 (.ok bodyUnknown) rfl rfl rfl,
   (outcome_decided_by_body (demoEnv (serveDemo bodyCatalogAB bodyUnknown))
      (demoLister (fun _ => false) ["pub/"] none 0) "pub/a" 0).2
      "t" 1 2 500 (.ok bodyPlain404) rfl rfl rfl⟩

/-! ## The stray lookup of `moo` (C2, C3, C4) -/

/-- C2 at the failing input: the catalog decodes to pub/a and pub/b, both
public; the tag fetch of pub/a fails and that of pub/b gives v1 and v2. When
the registry answers the `moo` lookup with plain text, `getRepositories` returns
nil instead of the list holding pub/b; when it answers `moo` with a JSON
document the list is returned. -/
theorem moo_failure_discards_fetched_tags :
    (getCatalog (demoEnv (serveDemo bodyCatalogAB bodyPlain404))
        (demoLister (fun _ => false) ["pub/"] none 0) 0).val = .ok ["pub/a", "pub/b"] ∧
    (getRepoInfo (demoEnv (serveDemo bodyCatalogAB bodyPlain404))
        (demoLister (fun _ => false) ["pub/"] none 0) "pub/a" 4).val
      = .error "unable to unmarshall response" ∧
    (getRepoInfo (demoEnv (serveDemo bodyCatalogAB bodyPlain404))
        (demoLister (fun _ => false) ["pub/"] none 0) "pub/b" 6).val
      = .ok { Name := "pub/b", Tags := ["v1", "v2"] } ∧
    (getRepoInfo (demoEnv (serveDemo bodyCatalogAB bodyPlain404))
        (demoLister (fun _ => false) ["pub/"] none 0) "moo" 2).val
      = .error "unable to unmarshall response" ∧
    (getRepositories (demoEnv (serveDemo bodyCatalogAB bodyPlain404))
        (demoLister (fun _ => false) ["pub/"] none 0) 0).val = none ∧
    (getRepositories (demoEnv (serveDemo bodyCatalogAB bodyUnknown))
        (demoLister (fun _ => false) ["pub/"] none 0) 0).val
      = some { Repositories := [{ Name := "pub/b", Tags := ["v1", "v2"] }] } :=
  ⟨rfl, rfl, rfl, rfl, rfl, rfl⟩

/-- C3 at the failing input: the catalog holds pub/a, pub/b and priv/c, the
only public prefix is `pub/`; `moo` is neither in the catalog nor public, yet
the cycle requests a token for it and sends the GET of its tag list. The token
requests of the cycle are, in order: the catalog one, moo, pub/a, pub/b. -/
theorem moo_is_fetched_every_cycle :
    demoUnmarshalCatalog bodyCatalogABC
      = .ok { Repositories := ["pub/a", "pub/b", "priv/c"] } ∧
    isScopePublic ["pub/"] (pullScope "moo") = false ∧
    Event.tokenRequest ["moo"]
      ∈ (getRepositories (demoEnv (serveDemo bodyCatalogABC bodyUnknown))
          (demoLister (fun _ => false) ["pub/"] none 0) 0).events ∧
    Event.httpDo { Method := "GET", URL := "http://localhost:8080/v2/moo/tags/list",
                   Header := [("Authorization", "Bearer t")] }
      ∈ (getRepositories (demoEnv (serveDemo bodyCatalogABC bodyUnknown))
          (demoLister (fun _ => false) ["pub/"] none 0) 0).events ∧
    (getRepositories (demoEnv (serveDemo bodyCatalogABC bodyUnknown))
        (demoLister (fun _ => false) ["pub/"] none 0) 0).events.filterMap
        (fun ev => match ev with
          | .tokenRequest scopes => some scopes
          | _ => none)
      = [[], ["moo"], ["pub/a"], ["pub/b"]] := by
  refine ⟨rfl, rfl, ?_, ?_, rfl⟩ <;> decide

/-- C4 at the failing input: the catalog call succeeds with no names, the
registry answers the `moo` lookup with plain text; the cycle publishes nil, the
value of the never-refreshed state, not an empty list. -/
theorem empty_catalog_publishes_nil :
    (getCatalog (demoEnv (serveDemo bodyCatalogNone bodyPlain404))
        (demoLister (fun _ => false) ["pub/"] none 0) 0).val = .ok [] ∧
    (getRepositories (demoEnv (serveDemo bodyCatalogNone bodyPlain404))
        (demoLister (fun _ => false) ["pub/"] none 0) 0).val = none ∧
    (refreshCycle (demoEnv (serveDemo bodyCatalogNone bodyPlain404))
        (demoLister (fun _ => false) ["pub/"] none 0) 0).val.repositories
      = (demoLister (fun _ => false) ["pub/"] none 0).repositories :=
  ⟨rfl, rfl, rfl⟩

/-! ## The statement-level task against the functions -/

theorem run_succ {W : Type} (env : Env W) (n : Nat) (σ : TaskState W) :
    run env (n + 1) σ = step env (run env n σ) := by
  induction n generalizing σ with
  | zero => rfl
  | succ n ih =>
    show run env (n + 1) (step env σ) = _
    rw [ih]
    rfl

theorem run_add {W : Type} (env : Env W) (a b : Nat) (σ : TaskState W) :
    run env (a + b) σ = run env b (run env a σ) := by
  induction b with
  | zero => rfl
  | succ b ih => rw [← Nat.add_assoc, run_succ, ih, run_succ]

theorem drop_of_getElem?_none (names : List String) (index : Nat)
    (h : names[index]? = none) : names.drop index = [] := by
  rw [List.getElem?_eq_none_iff] at h
  exact List.drop_eq_nil_of_le h

theorem drop_of_getElem?_some (names : List String) (index : Nat) (name : String)
    (h : names[index]? = some name) : names.drop index = name :: names.drop (index + 1) := by
  rw [List.getElem?_eq_some_iff] at h
  obtain ⟨hlt, hname⟩ := h
  rw [List.drop_eq_getElem_cons hlt, hname]

/-- The loop of `getRepositories`, run statement by statement from any index,
leaves the loop with what `fetchAll` computes for the remaining names. -/
theorem run_loop {W : Type} (env : Env W) (s : Lister W) (names : List String) :
    ∀ (m index : Nat) (acc : RepositoryList) (w : W) (tr : List Event),
      names.length - index = m →
      ∃ n, run env n { lister := s, world := w, control := .loop names index acc, trace := tr }
        = { lister := s, world := (fetchAll env s (names.drop index) acc w).world,
            control := .ret (some (fetchAll env s (names.drop index) acc w).val),
            trace := tr ++ (fetchAll env s (names.drop index) acc w).events } := by
  intro m
  induction m with
  | zero =>
    intro index acc w tr hm
    have hnone : names[index]? = none := by
      rw [List.getElem?_eq_none_iff]; omega
    refine ⟨1, ?_⟩
    rw [drop_of_getElem?_none names index hnone]
    simp [run, step, hnone, fetchAll]
  | succ m ih =>
    intro index acc w tr hm
    have hlt : index < names.length := by omega
    have hsome : names[index]? = some names[index] := List.getElem?_eq_getElem hlt
    rw [drop_of_getElem?_some names index _ hsome]
    cases hr : (getRepoInfo env s names[index] w).val with
    | error e =>
      obtain ⟨n, hn⟩ := ih (index + 1) acc (getRepoInfo env s names[index] w).world
        (tr ++ (getRepoInfo env s names[index] w).events) (by omega)
      refine ⟨2 + n, ?_⟩
      rw [run_add, show run env 2 _ = _ from by simp only [run, step, hsome, hr]; rfl, hn]
      simp [fetchAll, hr, List.append_assoc]
    | ok info =>
      obtain ⟨n, hn⟩ := ih (index + 1) { Repositories := acc.Repositories ++ [info] }
        (getRepoInfo env s names[index] w).world
        (tr ++ (getRepoInfo env s names[index] w).events) (by omega)
      refine ⟨2 + n, ?_⟩
      rw [run_add, show run env 2 _ = _ from by simp only [run, step, hsome, hr]; rfl, hn]
      simp [fetchAll, hr, List.append_assoc]

/-- The call of `getRepositories`, run statement by statement, reaches its
`return` with the value, world and actions of the function `getRepositories`,
the Lister being as before the call. -/
theorem run_getRepositories {W : Type} (env : Env W) (s : Lister W) (w : W)
    (tr : List Event) :
    ∃ n, run env n { lister := s, world := w, control := .catalog, trace := tr }
      = { lister := s, world := (getRepositories env s w).world,
          control := .ret (getRepositories env s w).val,
          trace := tr ++ (getRepositories env s w).events } := by
  cases hm : (getRepoInfo env s "moo" (getCatalog env s w).world).val with
  | error err =>
    refine ⟨4, ?_⟩
    simp [run, step, getRepositories, hm, errOf, List.append_assoc]
  | ok info =>
    obtain ⟨n, hn⟩ := run_loop env s (namesOrNil (getCatalog env s w).val)
      ((namesOrNil (getCatalog env s w).val).length - 0) 0 { Repositories := [] }
      (getRepoInfo env s "moo" (getCatalog env s w).world).world
      (tr ++ (getCatalog env s w).events
        ++ (getRepoInfo env s "moo" (getCatalog env s w).world).events) rfl
    refine ⟨4 + n, ?_⟩
    rw [run_add,
      show run env 4 { lister := s, world := w, control := Control.catalog, trace := tr }
        = { lister := s, world := (getRepoInfo env s "moo" (getCatalog env s w).world).world,
            control := .loop (namesOrNil (getCatalog env s w).val) 0 { Repositories := [] },
            trace := tr ++ (getCatalog env s w).events
              ++ (getRepoInfo env s "moo" (getCatalog env s w).world).events }
        from by simp [run, step, hm, errOf],
      hn]
    simp [getRepositories, hm, List.append_assoc]

/-- One refresh cycle, run statement by statement, reaches the wait on the
ticker with the Lister, world and actions of the function `refreshCycle`. -/
theorem run_cycle {W : Type} (env : Env W) (s : Lister W) (w : W) (tr : List Event) :
    ∃ n, run env n { lister := s, world := w, control := .catalog, trace := tr }
      = { lister := (refreshCycle env s w).val, world := (refreshCycle env s w).world,
          control := .wait, trace := tr ++ (refreshCycle env s w).events } := by
  obtain ⟨n, hn⟩ := run_getRepositories env s w tr
  refine ⟨n + 2, ?_⟩
  rw [run_add, hn]
  simp [run, step, refreshCycle, List.append_assoc]

/-! ## The two writes of a cycle (C8) -/

theorem cycleInv_start {W : Type} (env : Env W) (s : Lister W) (w : W) (tr : List Event) :
    CycleInv env s w { lister := s, world := w, control := .catalog, trace := tr } := by
  simp [CycleInv, resume]

theorem cycleInv_step {W : Type} (env : Env W) (s : Lister W) (w : W) (σ : TaskState W)
    (hwait : σ.control ≠ .wait) (h : CycleInv env s w σ) : CycleInv env s w (step env σ) := by
  obtain ⟨l, w1, c, tr⟩ := σ
  cases c with
  | catalog =>
    simp only [CycleInv, resume] at h
    obtain ⟨rfl, h⟩ := h
    simp only [CycleInv, step, resume, true_and]
    rw [← h]
    simp only [getRepositories]
    split <;> rfl
  | moo names err =>
    simp only [CycleInv, resume] at h
    obtain ⟨rfl, h⟩ := h
    simp only [CycleInv, step, true_and]
    rw [← h]
    cases (getRepoInfo env l "moo" w1).val <;> simp [errOf, resume]
  | test names err =>
    simp only [CycleInv] at h
    obtain ⟨rfl, h⟩ := h
    cases err with
    | none => simpa [CycleInv, step, resume] using h
    | some e => simpa [CycleInv, step, resume] using h
  | logError e =>
    simp only [CycleInv] at h
    obtain ⟨rfl, h⟩ := h
    simpa [CycleInv, step, resume] using h
  | alloc names =>
    simp only [CycleInv] at h
    obtain ⟨rfl, h⟩ := h
    simpa [CycleInv, step, resume] using h
  | loop names index acc =>
    simp only [CycleInv, resume] at h
    obtain ⟨rfl, h⟩ := h
    cases hget : names[index]? with
    | none =>
      rw [drop_of_getElem?_none names index hget] at h
      simpa [CycleInv, step, hget, resume, fetchAll] using h
    | some name =>
      rw [drop_of_getElem?_some names index name hget] at h
      simp only [CycleInv, step, hget, true_and]
      rw [← h]
      cases hr : (getRepoInfo env l name w1).val <;> simp [resume, fetchAll, hr]
  | append names index acc fetched =>
    simp only [CycleInv] at h
    obtain ⟨rfl, h⟩ := h
    cases fetched with
    | error e => simpa [CycleInv, step, resume] using h
    | ok info => simpa [CycleInv, step, resume] using h
  | ret result =>
    simp only [CycleInv, resume, Option.some.injEq, Prod.mk.injEq] at h
    obtain ⟨rfl, rfl, rfl⟩ := h
    simp [CycleInv, step]
  | poll =>
    simp only [CycleInv] at h
    obtain ⟨rfl, rfl⟩ := h
    simp [CycleInv, step, refreshCycle]
  | wait => exact absurd rfl hwait

theorem cycleInv_of_catalog {W : Type} (env : Env W) (σ : TaskState W)
    (h : σ.control = .catalog) : CycleInv env σ.lister σ.world σ := by
  obtain ⟨l, w1, c, tr⟩ := σ
  simp only at h
  subst h
  exact cycleInv_start env l w1 tr

theorem step_wait_control {W : Type} (env : Env W) (σ : TaskState W)
    (h : σ.control = .wait) : (step env σ).control = .catalog := by
  obtain ⟨l, w1, c, tr⟩ := σ
  simp only at h
  subst h
  rfl

/-- Every state the task reaches belongs to the cycle that began at the last
entry into `getRepositories`: there is an earlier step `k` at which the task
was at line 141, no wait on the ticker lies between `k` and `n`, and the state
after `n` statements satisfies the cycle invariant of the state after `k`. -/
theorem reachable_in_cycle {W : Type} (env : Env W) (s : Lister W) (w : W) (n : Nat) :
    ∃ k, k ≤ n ∧ (run env k (TaskState.initial s w)).control = .catalog ∧
      (∀ j, k ≤ j → j < n → (run env j (TaskState.initial s w)).control ≠ .wait) ∧
      CycleInv env (run env k (TaskState.initial s w)).lister
        (run env k (TaskState.initial s w)).world (run env n (TaskState.initial s w)) := by
  induction n with
  | zero =>
    refine ⟨0, Nat.le_refl 0, rfl, ?_, ?_⟩
    · intro j _ hj
      omega
    · exact cycleInv_start env s w []
  | succ n ih =>
    obtain ⟨k, hk, hstart, hnowait, hinv⟩ := ih
    by_cases hw : (run env n (TaskState.initial s w)).control = .wait
    · refine ⟨n + 1, Nat.le_refl _, ?_, ?_, ?_⟩
      · rw [run_succ]
        exact step_wait_control env _ hw
      · intro j h1 h2
        omega
      · apply cycleInv_of_catalog
        rw [run_succ]
        exact step_wait_control env _ hw
    · refine ⟨k, Nat.le_succ_of_le hk, hstart, ?_, ?_⟩
      · intro j h1 h2
        by_cases hjn : j = n
        · subst hjn
          exact hw
        · exact hnowait j h1 (by omega)
      · rw [run_succ]
        exact cycleInv_step env _ _ _ hw hinv

/-- C8 as stated fails: the registry lists `pub/b` during the first cycle and
nothing during the second. After 9 statements the first cycle has published
the list with `pub/b` and the time 6; after 17 the second cycle has published
an empty list and the time 71; after 16 statements the task is between the two
writes of the second cycle and the pair read by `ListingIndex` is the new empty
list together with the previous time 6, which is neither published pair. -/
theorem torn_snapshot_is_reachable :
    (run (demoEnv serveChanging) 9
        (TaskState.initial (demoLister (fun _ => false) ["pub/"] none 0) 0)).snapshot
      = (some { Repositories := [{ Name := "pub/b", Tags := ["v1", "v2"] }] }, 6) ∧
    (run (demoEnv serveChanging) 17
        (TaskState.initial (demoLister (fun _ => false) ["pub/"] none 0) 0)).snapshot
      = (some { Repositories := [] }, 71) ∧
    (run (demoEnv serveChanging) 16
        (TaskState.initial (demoLister (fun _ => false) ["pub/"] none 0) 0)).snapshot
      = (some { Repositories := [] }, 6) ∧
    (run (demoEnv serveChanging) 16
        (TaskState.initial (demoLister (fun _ => false) ["pub/"] none 0) 0)).snapshot
      ≠ (run (demoEnv serveChanging) 9
          (TaskState.initial (demoLister (fun _ => false) ["pub/"] none 0) 0)).snapshot ∧
    (run (demoEnv serveChanging) 16
        (TaskState.initial (demoLister (fun _ => false) ["pub/"] none 0) 0)).snapshot
      ≠ (run (demoEnv serveChanging) 17
          (TaskState.initial (demoLister (fun _ => false) ["pub/"] none 0) 0)).snapshot := by
  refine ⟨rfl, rfl, rfl, ?_, ?_⟩ <;> decide

/-- C8 amended: every state the task reaches lies in one refresh cycle, the one
begun at the last entry `k` into `getRepositories`. With `start` the state at
that entry and `new` the Lister that `refreshCycle` computes from it: while
`getRepositories` runs, its list under construction included, the pair read by
`ListingIndex` is the pair held at `start`; between the two writes (control
point `poll`) it is the new list in full with the poll time held at `start`;
once the second write is done (control point `wait`) it is the new pair. -/
theorem snapshot_written_in_two_steps {W : Type} (env : Env W) (s : Lister W) (w : W)
    (n : Nat) :
    ∃ k, k ≤ n ∧ (run env k (TaskState.initial s w)).control = .catalog ∧
      (∀ j, k ≤ j → j < n → (run env j (TaskState.initial s w)).control ≠ .wait) ∧
      ((run env n (TaskState.initial s w)).control = .wait →
        (run env n (TaskState.initial s w)).snapshot
          = ((refreshCycle env (run env k (TaskState.initial s w)).lister
                (run env k (TaskState.initial s w)).world).val.repositories,
             (refreshCycle env (run env k (TaskState.initial s w)).lister
                (run env k (TaskState.initial s w)).world).val.lastPoll)) ∧
      ((run env n (TaskState.initial s w)).control = .poll →
        (run env n (TaskState.initial s w)).snapshot
          = ((refreshCycle env (run env k (TaskState.initial s w)).lister
                (run env k (TaskState.initial s w)).world).val.repositories,
             (run env k (TaskState.initial s w)).lister.lastPoll)) ∧
      ((run env n (TaskState.initial s w)).control ≠ .wait →
        (run env n (TaskState.initial s w)).control ≠ .poll →
        (run env n (TaskState.initial s w)).snapshot
          = (run env k (TaskState.initial s w)).snapshot) := by
  obtain ⟨k, hk, hstart, hnowait, hinv⟩ := reachable_in_cycle env s w n
  refine ⟨k, hk, hstart, hnowait, ?_, ?_, ?_⟩
  · intro hc
    simp only [CycleInv, hc] at hinv
    simp [TaskState.snapshot, hinv]
  · intro hc
    simp only [CycleInv, hc] at hinv
    simp [TaskState.snapshot, hinv.1, refreshCycle]
  · intro hw hp
    generalize run env n (TaskState.initial s w) = σ at hinv hw hp
    obtain ⟨l, w1, c, tr⟩ := σ
    cases c <;> first
      | exact absurd rfl hw
      | exact absurd rfl hp
      | (simp only [CycleInv] at hinv; simp [TaskState.snapshot, hinv.1])

/-! ## Cycles and ticks alternate (C9) -/

theorem getRepoInfo_counts {W : Type} (env : Env W) (s : Lister W) (repository : String)
    (w : W) :
    cyclesStarted (getRepoInfo env s repository w).events = 0 ∧
    cyclesPublished (getRepoInfo env s repository w).events = 0 ∧
    ticksReceived (getRepoInfo env s repository w).events = 0 := by
  simp only [getRepoInfo]
  repeat' split
  all_goals simp [cyclesStarted, cyclesPublished, ticksReceived]

theorem getCatalog_counts {W : Type} (env : Env W) (s : Lister W) (w : W) :
    cyclesStarted (getCatalog env s w).events = 1 ∧
    cyclesPublished (getCatalog env s w).events = 0 ∧
    ticksReceived (getCatalog env s w).events = 0 := by
  simp only [getCatalog]
  repeat' split
  all_goals simp [cyclesStarted, cyclesPublished, ticksReceived]

theorem cyclesStarted_append (a b : List Event) :
    cyclesStarted (a ++ b) = cyclesStarted a + cyclesStarted b := by
  simp [cyclesStarted]

theorem cyclesPublished_append (a b : List Event) :
    cyclesPublished (a ++ b) = cyclesPublished a + cyclesPublished b := by
  simp [cyclesPublished]

theorem ticksReceived_append (a b : List Event) :
    ticksReceived (a ++ b) = ticksReceived a + ticksReceived b := by
  simp [ticksReceived]

theorem fetchAll_counts {W : Type} (env : Env W) (s : Lister W) (names : List String)
    (acc : RepositoryList) (w : W) :
    cyclesStarted (fetchAll env s names acc w).events = 0 ∧
    cyclesPublished (fetchAll env s names acc w).events = 0 ∧
    ticksReceived (fetchAll env s names acc w).events = 0 := by
  induction names generalizing acc w with
  | nil => simp [fetchAll, cyclesStarted, cyclesPublished, ticksReceived]
  | cons name rest ih =>
    obtain ⟨h1, h2, h3⟩ := getRepoInfo_counts env s name w
    simp only [fetchAll, cyclesStarted_append, cyclesPublished_append, ticksReceived_append,
      h1, h2, h3, Nat.zero_add]
    exact ih _ _

theorem getRepositories_counts {W : Type} (env : Env W) (s : Lister W) (w : W) :
    cyclesStarted (getRepositories env s w).events = 1 ∧
    cyclesPublished (getRepositories env s w).events = 0 ∧
    ticksReceived (getRepositories env s w).events = 0 := by
  obtain ⟨c1, c2, c3⟩ := getCatalog_counts env s w
  obtain ⟨m1, m2, m3⟩ := getRepoInfo_counts env s "moo" (getCatalog env s w).world
  simp only [getRepositories]
  split
  · simp [cyclesStarted_append, cyclesPublished_append, ticksReceived_append, c1, c2, c3,
      m1, m2, m3]
    simp [cyclesStarted, cyclesPublished, ticksReceived]
  · obtain ⟨f1, f2, f3⟩ := fetchAll_counts env s (namesOrNil (getCatalog env s w).val)
      { Repositories := [] } (getRepoInfo env s "moo" (getCatalog env s w).world).world
    simp [cyclesStarted_append, cyclesPublished_append, ticksReceived_append, c1, c2, c3,
      m1, m2, m3, f1, f2, f3]

theorem refreshCycle_counts {W : Type} (env : Env W) (s : Lister W) (w : W) :
    cyclesStarted (refreshCycle env s w).events = 1 ∧
    cyclesPublished (refreshCycle env s w).events = 1 ∧
    ticksReceived (refreshCycle env s w).events = 0 := by
  obtain ⟨g1, g2, g3⟩ := getRepositories_counts env s w
  simp only [refreshCycle, cyclesStarted_append, cyclesPublished_append, ticksReceived_append,
    g1, g2, g3]
  simp [cyclesStarted, cyclesPublished, ticksReceived]

theorem countInv_step {W : Type} (env : Env W) (σ : TaskState W) (h : CountInv σ) :
    CountInv (step env σ) := by
  obtain ⟨l, w1, c, tr⟩ := σ
  cases c with
  | catalog =>
    obtain ⟨c1, c2, c3⟩ := getCatalog_counts env l w1
    simp only [CountInv] at h
    simp only [CountInv, step, cyclesStarted_append, cyclesPublished_append,
      ticksReceived_append, c1, c2, c3]
    omega
  | moo names err =>
    obtain ⟨m1, m2, m3⟩ := getRepoInfo_counts env l "moo" w1
    simp only [CountInv] at h
    simp only [CountInv, step, cyclesStarted_append, cyclesPublished_append,
      ticksReceived_append, m1, m2, m3]
    omega
  | test names err =>
    cases err with
    | none => simpa [CountInv, step] using h
    | some e => simpa [CountInv, step] using h
  | logError e =>
    simp only [CountInv] at h
    simp only [CountInv, step, cyclesStarted_append, cyclesPublished_append,
      ticksReceived_append]
    simp only [cyclesStarted, cyclesPublished, ticksReceived] at h ⊢
    simpa using h
  | alloc names => simpa [CountInv, step] using h
  | loop names index acc =>
    cases hget : names[index]? with
    | none => simpa [CountInv, step, hget] using h
    | some name =>
      obtain ⟨r1, r2, r3⟩ := getRepoInfo_counts env l name w1
      simp only [CountInv] at h
      simp only [CountInv, step, hget, cyclesStarted_append, cyclesPublished_append,
        ticksReceived_append, r1, r2, r3]
      omega
  | append names index acc fetched =>
    cases fetched with
    | error e => simpa [CountInv, step] using h
    | ok info => simpa [CountInv, step] using h
  | ret result => simpa [CountInv, step] using h
  | poll =>
    simp only [CountInv] at h
    simp only [CountInv, step, cyclesStarted_append, cyclesPublished_append,
      ticksReceived_append]
    simp only [cyclesStarted, cyclesPublished, ticksReceived] at h ⊢
    simp
    omega
  | wait =>
    simp only [CountInv] at h
    simp only [CountInv, step, cyclesStarted_append, cyclesPublished_append,
      ticksReceived_append]
    simp only [cyclesStarted, cyclesPublished, ticksReceived] at h ⊢
    simp
    omega

theorem countInv_run {W : Type} (env : Env W) (s : Lister W) (w : W) (n : Nat) :
    CountInv (run env n (TaskState.initial s w)) := by
  induction n with
  | zero => simp [run, TaskState.initial, CountInv, cyclesStarted, cyclesPublished,
      ticksReceived]
  | succ n ih =>
    rw [run_succ]
    exact countInv_step env _ ih

theorem step_wait {W : Type} (env : Env W) (σ : TaskState W) (h : σ.control = .wait) :
    step env σ
      = { lister := σ.lister, world := env.awaitTick σ.world, control := .catalog,
          trace := σ.trace ++ [.tick] } := by
  obtain ⟨l, w1, c, tr⟩ := σ
  simp only at h
  subst h
  rfl

/-- As long as every receive at line 93 delivers (`run`), any number of cycles
gets published: for every `cycles` there is a state, waiting on the ticker,
whose trace holds `cycles + 1` published cycles and `cycles` ticks. -/
theorem cycles_keep_coming {W : Type} (env : Env W) (s : Lister W) (w : W) (cycles : Nat) :
    ∃ n, (run env n (TaskState.initial s w)).control = .wait ∧
      cyclesPublished (run env n (TaskState.initial s w)).trace = cycles + 1 ∧
      ticksReceived (run env n (TaskState.initial s w)).trace = cycles := by
  induction cycles with
  | zero =>
    obtain ⟨n, hn⟩ := run_cycle env s w []
    obtain ⟨_, r2, r3⟩ := refreshCycle_counts env s w
    refine ⟨n, ?_, ?_, ?_⟩
    · simp only [TaskState.initial, hn]
    · simp only [TaskState.initial, hn, List.nil_append, r2]
    · simp only [TaskState.initial, hn, List.nil_append, r3]
  | succ cycles ih =>
    obtain ⟨n, hc, hp, ht⟩ := ih
    obtain ⟨m, hm⟩ := run_cycle env (run env n (TaskState.initial s w)).lister
      (env.awaitTick (run env n (TaskState.initial s w)).world)
      ((run env n (TaskState.initial s w)).trace ++ [.tick])
    obtain ⟨_, r2, r3⟩ := refreshCycle_counts env (run env n (TaskState.initial s w)).lister
      (env.awaitTick (run env n (TaskState.initial s w)).world)
    have hrun : run env (n + 1 + m) (TaskState.initial s w)
        = run env m
            { lister := (run env n (TaskState.initial s w)).lister,
              world := env.awaitTick (run env n (TaskState.initial s w)).world,
              control := .catalog,
              trace := (run env n (TaskState.initial s w)).trace ++ [.tick] } := by
      rw [run_add, run_succ, step_wait env _ hc]
    rw [hm] at hrun
    refine ⟨n + 1 + m, ?_, ?_, ?_⟩
    · rw [hrun]
    · rw [hrun]
      simp only [cyclesPublished_append, hp, r2]
      simp [cyclesPublished]
    · rw [hrun]
      simp only [ticksReceived_append, ht, r3]
      simp [ticksReceived]

/-- C8 amended at a concrete input: the run whose second cycle finds an empty
catalog, after 16 statements. -/
theorem snapshot_written_in_two_steps_witness :
    ∃ k, k ≤ 16 ∧
      (run (demoEnv serveChanging) k
        (TaskState.initial (demoLister (fun _ => false) ["pub/"] none 0) 0)).control
        = .catalog ∧
      (∀ j, k ≤ j → j < 16 →
        (run (demoEnv serveChanging) j
          (TaskState.initial (demoLister (fun _ => false) ["pub/"] none 0) 0)).control
          ≠ .wait) ∧
      ((run (demoEnv serveChanging) 16
          (TaskState.initial (demoLister (fun _ => false) ["pub/"] none 0) 0)).control
          = .wait →
        (run (demoEnv serveChanging) 16
          (TaskState.initial (demoLister (fun _ => false) ["pub/"] none 0) 0)).snapshot
          = ((refreshCycle (demoEnv serveChanging)
                (run (demoEnv serveChanging) k
                  (TaskState.initial (demoLister (fun _ => false) ["pub/"] none 0) 0)).lister
                (run (demoEnv serveChanging) k
                  (TaskState.initial (demoLister (fun _ => false) ["pub/"] none 0) 0)).world
              ).val.repositories,
             (refreshCycle (demoEnv serveChanging)
                (run (demoEnv serveChanging) k
                  (TaskState.initial (demoLister (fun _ => false) ["pub/"] none 0) 0)).lister
                (run (demoEnv serveChanging) k
                  (TaskState.initial (demoLister (fun _ => false) ["pub/"] none 0) 0)).world
              ).val.lastPoll)) ∧
      ((run (demoEnv serveChanging) 16
          (TaskState.initial (demoLister (fun _ => false) ["pub/"] none 0) 0)).control
          = .poll →
        (run (demoEnv serveChanging) 16
          (TaskState.initial (demoLister (fun _ => false) ["pub/"] none 0) 0)).snapshot
          = ((refreshCycle (demoEnv serveChanging)
                (run (demoEnv serveChanging) k
                  (TaskState.initial (demoLister (fun _ => false) ["pub/"] none 0) 0)).lister
                (run (demoEnv serveChanging) k
                  (TaskState.initial (demoLister (fun _ => false) ["pub/"] none 0) 0)).world
              ).val.repositories,
             (run (demoEnv serveChanging) k
               (TaskState.initial (demoLister (fun _ => false) ["pub/"] none 0) 0)
               ).lister.lastPoll)) ∧
      ((run (demoEnv serveChanging) 16
          (TaskState.initial (demoLister (fun _ => false) ["pub/"] none 0) 0)).control
          ≠ .wait →
        (run (demoEnv serveChanging) 16
          (TaskState.initial (demoLister (fun _ => false) ["pub/"] none 0) 0)).control
          ≠ .poll →
        (run (demoEnv serveChanging) 16
          (TaskState.initial (demoLister (fun _ => false) ["pub/"] none 0) 0)).snapshot
          = (run (demoEnv serveChanging) k
              (TaskState.initial (demoLister (fun _ => false) ["pub/"] none 0) 0)).snapshot) :=
  snapshot_written_in_two_steps (demoEnv serveChanging)
    (demoLister (fun _ => false) ["pub/"] none 0) 0 16

/-! ## The task and its ticker (C9) -/

theorem taskRun_succ {W : Type} (env : Env W) (n : Nat) (σ : TaskState W) :
    taskRun env (n + 1) σ = taskStep env (taskRun env n σ) := by
  induction n generalizing σ with
  | zero => rfl
  | succ n ih =>
    show taskRun env (n + 1) (taskStep env σ) = _
    rw [ih]
    rfl

theorem taskStep_of_not_wait {W : Type} (env : Env W) (σ : TaskState W)
    (h : σ.control ≠ .wait) : taskStep env σ = step env σ := by
  obtain ⟨l, w1, c, tr⟩ := σ
  cases c <;> first
    | rfl
    | exact absurd rfl h

theorem taskStep_of_live {W : Type} (env : Env W) (σ : TaskState W)
    (h : 0 < env.RefreshInterval) : taskStep env σ = step env σ := by
  obtain ⟨l, w1, c, tr⟩ := σ
  cases c <;> first
    | rfl
    | simp [taskStep, h]

/-- Every state of the task is a state of `run`: the task makes the moves of
`run`, or none. -/
theorem taskRun_is_run {W : Type} (env : Env W) (σ : TaskState W) (n : Nat) :
    ∃ m, m ≤ n ∧ taskRun env n σ = run env m σ := by
  induction n with
  | zero => exact ⟨0, Nat.le_refl 0, rfl⟩
  | succ n ih =>
    obtain ⟨m, hm, heq⟩ := ih
    rw [taskRun_succ, heq]
    by_cases hw : (run env m σ).control = .wait
    · by_cases hpos : 0 < env.RefreshInterval
      · exact ⟨m + 1, by omega, by rw [taskStep_of_live env _ hpos, run_succ]⟩
      · refine ⟨m, by omega, ?_⟩
        generalize run env m σ = x at hw
        obtain ⟨l, w1, c, tr⟩ := x
        simp only at hw
        subst hw
        simp [taskStep, hpos]
    · exact ⟨m + 1, by omega, by rw [taskStep_of_not_wait env _ hw, run_succ]⟩

theorem ticks_step_of_not_wait {W : Type} (env : Env W) (σ : TaskState W)
    (h : σ.control ≠ .wait) :
    ticksReceived (step env σ).trace = ticksReceived σ.trace := by
  obtain ⟨l, w1, c, tr⟩ := σ
  cases c with
  | catalog => simp [step, ticksReceived_append, (getCatalog_counts env l w1).2.2]
  | moo names err =>
    simp [step, ticksReceived_append, (getRepoInfo_counts env l "moo" w1).2.2]
  | test names err => cases err <;> rfl
  | logError e =>
    simp only [step, ticksReceived_append]
    simp [ticksReceived]
  | alloc names => rfl
  | loop names index acc =>
    cases hget : names[index]? with
    | none => simp [step, hget]
    | some name =>
      simp [step, hget, ticksReceived_append, (getRepoInfo_counts env l name w1).2.2]
  | append names index acc fetched => cases fetched <;> rfl
  | ret result => rfl
  | poll =>
    simp only [step, ticksReceived_append]
    simp [ticksReceived]
  | wait => exact absurd rfl h

theorem ticks_step_of_wait {W : Type} (env : Env W) (σ : TaskState W)
    (h : σ.control = .wait) :
    ticksReceived (step env σ).trace = ticksReceived σ.trace + 1 := by
  rw [step_wait env σ h]
  simp only [ticksReceived_append]
  simp [ticksReceived]

theorem ticks_run_le {W : Type} (env : Env W) (σ : TaskState W) (a b : Nat) (hab : a ≤ b) :
    ticksReceived (run env a σ).trace ≤ ticksReceived (run env b σ).trace := by
  induction b with
  | zero =>
    have : a = 0 := by omega
    subst this
    exact Nat.le_refl _
  | succ b ih =>
    by_cases hlast : a = b + 1
    · subst hlast
      exact Nat.le_refl _
    · have h1 := ih (by omega)
      have h2 : ticksReceived (run env b σ).trace
          ≤ ticksReceived (run env (b + 1) σ).trace := by
        rw [run_succ]
        by_cases hw : (run env b σ).control = .wait
        · rw [ticks_step_of_wait env _ hw]
          omega
        · rw [ticks_step_of_not_wait env _ hw]
      omega

/-- A run that received no tick passed through no wait on the ticker. -/
theorem no_wait_before {W : Type} (env : Env W) (σ : TaskState W) (n : Nat)
    (h : ticksReceived (run env n σ).trace = ticksReceived σ.trace) :
    ∀ j, j < n → (run env j σ).control ≠ .wait := by
  intro j hj hw
  have h1 : ticksReceived σ.trace ≤ ticksReceived (run env j σ).trace :=
    ticks_run_le env σ 0 j (Nat.zero_le j)
  have h2 : ticksReceived (run env (j + 1) σ).trace
      = ticksReceived (run env j σ).trace + 1 := by
    rw [run_succ, ticks_step_of_wait env _ hw]
  have h3 := ticks_run_le env σ (j + 1) n hj
  omega

theorem taskRun_eq_run_of_no_wait {W : Type} (env : Env W) (σ : TaskState W) (n : Nat)
    (h : ∀ j, j < n → (run env j σ).control ≠ .wait) : taskRun env n σ = run env n σ := by
  induction n with
  | zero => rfl
  | succ n ih =>
    rw [taskRun_succ, run_succ, ih (fun j hj => h j (by omega)),
      taskStep_of_not_wait env _ (h n (by omega))]

/-- The entry of a cycle is reached by a move of the task only from the wait
on the ticker, with a positive interval, by one receive. -/
theorem catalog_entered_by_tick {W : Type} (env : Env W) (x : TaskState W)
    (h : (taskStep env x).control = .catalog) :
    x.control = .wait ∧ 0 < env.RefreshInterval ∧
    taskStep env x
      = { lister := x.lister, world := env.awaitTick x.world, control := .catalog,
          trace := x.trace ++ [.tick] } := by
  obtain ⟨l, w1, c, tr⟩ := x
  cases c with
  | catalog => simp [taskStep, step] at h
  | moo names err => simp [taskStep, step] at h
  | test names err => cases err <;> simp [taskStep, step] at h
  | logError e => simp [taskStep, step] at h
  | alloc names => simp [taskStep, step] at h
  | loop names index acc =>
    cases hget : names[index]? <;> simp [taskStep, step, hget] at h
  | append names index acc fetched => cases fetched <;> simp [taskStep, step] at h
  | ret result => simp [taskStep, step] at h
  | poll => simp [taskStep, step] at h
  | wait =>
    by_cases hpos : 0 < env.RefreshInterval
    · exact ⟨rfl, hpos, by simp [taskStep, hpos, step]⟩
    · simp [taskStep, hpos] at h

/-- With a positive refresh interval the cycles never stop: for every `cycles`
the task reaches a state, waiting on the ticker, whose trace holds
`cycles + 1` published cycles and `cycles` ticks. -/
theorem task_cycles_keep_coming {W : Type} (env : Env W) (s : Lister W) (w : W)
    (hpos : 0 < env.RefreshInterval) (cycles : Nat) :
    ∃ n, (taskRun env n (TaskState.initial s w)).control = .wait ∧
      cyclesPublished (taskRun env n (TaskState.initial s w)).trace = cycles + 1 ∧
      ticksReceived (taskRun env n (TaskState.initial s w)).trace = cycles := by
  have hsame : ∀ n σ, taskRun env n σ = run env n σ := by
    intro n
    induction n with
    | zero => intro σ; rfl
    | succ n ih =>
      intro σ
      rw [taskRun_succ, run_succ, ih, taskStep_of_live env _ hpos]
  obtain ⟨n, hn⟩ := cycles_keep_coming env s w cycles
  exact ⟨n, by rw [hsame]; exact hn⟩

/-- With a refresh interval of zero or less the ticker never fires: the task
receives no tick and begins no cycle after the first. -/
theorem task_without_ticker_runs_once {W : Type} (env : Env W) (s : Lister W) (w : W)
    (hnil : env.RefreshInterval ≤ 0) (n : Nat) :
    ticksReceived (taskRun env n (TaskState.initial s w)).trace = 0 ∧
    cyclesStarted (taskRun env n (TaskState.initial s w)).trace ≤ 1 := by
  have hticks : ticksReceived (taskRun env n (TaskState.initial s w)).trace = 0 := by
    induction n with
    | zero => rfl
    | succ n ih =>
      rw [taskRun_succ]
      by_cases hw : (taskRun env n (TaskState.initial s w)).control = .wait
      · generalize taskRun env n (TaskState.initial s w) = x at hw ih
        obtain ⟨l, w1, c, tr⟩ := x
        simp only at hw
        subst hw
        have hnot : ¬ 0 < env.RefreshInterval := by omega
        simpa [taskStep, hnot] using ih
      · rw [taskStep_of_not_wait env _ hw, ticks_step_of_not_wait env _ hw, ih]
  refine ⟨hticks, ?_⟩
  obtain ⟨m, _, heq⟩ := taskRun_is_run env (TaskState.initial s w) n
  have hinv := countInv_run env s w m
  rw [← heq] at hinv
  generalize taskRun env n (TaskState.initial s w) = x at hinv hticks
  obtain ⟨l, w1, c, tr⟩ := x
  cases c <;> simp only [CountInv] at hinv <;> simp only at hticks <;> simp only <;> omega

/-- C9: in the task that `start` launches, (1) the first refresh cycle is
carried out and published before any wait: the task reaches the wait on the
ticker with the Lister and the world of `refreshCycle` and a trace that is
exactly the actions of that cycle, no tick among them; (2) in every reachable
state: on entering a cycle every cycle begun has been published and there has
been one tick per cycle so far; inside a cycle exactly one cycle is begun and
not yet published and the ticks received equal the cycles published; waiting
on the ticker, every cycle begun is published and there is one tick less than
cycles; (3) every entry of a cycle after the first is made by one receive from
the ticker: the state before was waiting on the ticker, the interval is
positive, and the entry state is that state with the world the receive leaves,
the Lister unchanged and one tick added to the trace. -/
theorem cycles_alternate_with_ticks {W : Type} (env : Env W) (s : Lister W) (w : W) :
    (∃ n, taskRun env n (TaskState.initial s w)
        = { lister := (refreshCycle env s w).val, world := (refreshCycle env s w).world,
            control := .wait, trace := (refreshCycle env s w).events } ∧
      ticksReceived (refreshCycle env s w).events = 0) ∧
    (∀ n,
      ((taskRun env n (TaskState.initial s w)).control = .catalog →
        cyclesStarted (taskRun env n (TaskState.initial s w)).trace
          = ticksReceived (taskRun env n (TaskState.initial s w)).trace ∧
        cyclesPublished (taskRun env n (TaskState.initial s w)).trace
          = ticksReceived (taskRun env n (TaskState.initial s w)).trace) ∧
      ((taskRun env n (TaskState.initial s w)).control = .wait →
        cyclesStarted (taskRun env n (TaskState.initial s w)).trace
          = ticksReceived (taskRun env n (TaskState.initial s w)).trace + 1 ∧
        cyclesPublished (taskRun env n (TaskState.initial s w)).trace
          = ticksReceived (taskRun env n (TaskState.initial s w)).trace + 1) ∧
      ((taskRun env n (TaskState.initial s w)).control ≠ .catalog →
        (taskRun env n (TaskState.initial s w)).control ≠ .wait →
        cyclesStarted (taskRun env n (TaskState.initial s w)).trace
          = ticksReceived (taskRun env n (TaskState.initial s w)).trace + 1 ∧
        cyclesPublished (taskRun env n (TaskState.initial s w)).trace
          = ticksReceived (taskRun env n (TaskState.initial s w)).trace)) ∧
    (∀ n, (taskRun env (n + 1) (TaskState.initial s w)).control = .catalog →
      (taskRun env n (TaskState.initial s w)).control = .wait ∧
      0 < env.RefreshInterval ∧
      taskRun env (n + 1) (TaskState.initial s w)
        = { lister := (taskRun env n (TaskState.initial s w)).lister,
            world := env.awaitTick (taskRun env n (TaskState.initial s w)).world,
            control := .catalog,
            trace := (taskRun env n (TaskState.initial s w)).trace ++ [.tick] }) := by
  refine ⟨?_, ?_, ?_⟩
  · obtain ⟨n, hn⟩ := run_cycle env s w []
    have hticks := (refreshCycle_counts env s w).2.2
    have hrun : run env n (TaskState.initial s w)
        = { lister := (refreshCycle env s w).val, world := (refreshCycle env s w).world,
            control := .wait, trace := (refreshCycle env s w).events } := by
      simpa [TaskState.initial] using hn
    have hnowait := no_wait_before env (TaskState.initial s w) n (by
      rw [hrun]
      simpa [TaskState.initial, ticksReceived] using hticks)
    exact ⟨n, by rw [taskRun_eq_run_of_no_wait env _ n hnowait, hrun], hticks⟩
  · intro n
    obtain ⟨m, _, heq⟩ := taskRun_is_run env (TaskState.initial s w) n
    have hinv := countInv_run env s w m
    rw [← heq] at hinv
    generalize taskRun env n (TaskState.initial s w) = σ at hinv
    obtain ⟨l, w1, c, tr⟩ := σ
    refine ⟨?_, ?_, ?_⟩
    · intro hc
      simp only at hc
      subst hc
      exact hinv
    · intro hc
      simp only at hc
      subst hc
      exact hinv
    · intro h1 h2
      cases c <;> first
        | exact absurd rfl h1
        | exact absurd rfl h2
        | exact hinv
  · intro n hentry
    rw [taskRun_succ] at hentry ⊢
    exact catalog_entered_by_tick env _ hentry

/-- C9 at a concrete input, the run whose second cycle finds an empty catalog.
After 16 moves the task is between the two writes of its second cycle: two
cycles begun, one published, one tick received. The second cycle was entered
at move 10 from the wait reached at move 9, in the world 67 that the receive
left of the world 7. -/
theorem cycles_alternate_with_ticks_witness :
    cyclesStarted (taskRun (demoEnv serveChanging) 16
        (TaskState.initial (demoLister (fun _ => false) ["pub/"] none 0) 0)).trace = 2 ∧
    ticksReceived (taskRun (demoEnv serveChanging) 16
        (TaskState.initial (demoLister (fun _ => false) ["pub/"] none 0) 0)).trace = 1 ∧
    (cyclesStarted (taskRun (demoEnv serveChanging) 16
        (TaskState.initial (demoLister (fun _ => false) ["pub/"] none 0) 0)).trace
      = ticksReceived (taskRun (demoEnv serveChanging) 16
          (TaskState.initial (demoLister (fun _ => false) ["pub/"] none 0) 0)).trace + 1 ∧
     cyclesPublished (taskRun (demoEnv serveChanging) 16
        (TaskState.initial (demoLister (fun _ => false) ["pub/"] none 0) 0)).trace
      = ticksReceived (taskRun (demoEnv serveChanging) 16
          (TaskState.initial (demoLister (fun _ => false) ["pub/"] none 0) 0)).trace) ∧
    (taskRun (demoEnv serveChanging) 9
        (TaskState.initial (demoLister (fun _ => false) ["pub/"] none 0) 0)).world = 7 ∧
    (taskRun (demoEnv serveChanging) 10
        (TaskState.initial (demoLister (fun _ => false) ["pub/"] none 0) 0)).world = 67 ∧
    ((taskRun (demoEnv serveChanging) 9
        (TaskState.initial (demoLister (fun _ => false) ["pub/"] none 0) 0)).control = .wait ∧
     0 < (demoEnv serveChanging).RefreshInterval ∧
     taskRun (demoEnv serveChanging) 10
        (TaskState.initial (demoLister (fun _ => false) ["pub/"] none 0) 0)
      = { lister := (taskRun (demoEnv serveChanging) 9
            (TaskState.initial (demoLister (fun _ => false) ["pub/"] none 0) 0)).lister,
          world := (demoEnv serveChanging).awaitTick
            (taskRun (demoEnv serveChanging) 9
              (TaskState.initial (demoLister (fun _ => false) ["pub/"] none 0) 0)).world,
          control := .catalog,
          trace := (taskRun (demoEnv serveChanging) 9
            (TaskState.initial (demoLister (fun _ => false) ["pub/"] none 0) 0)).trace
            ++ [.tick] }) :=
  ⟨by decide, by decide,
    ((cycles_alternate_with_ticks (demoEnv serveChanging)
        (demoLister (fun _ => false) ["pub/"] none 0) 0).2.1 16).2.2
      (fun h => Control.noConfusion h) (fun h => Control.noConfusion h),
    by decide, by decide,
    (cycles_alternate_with_ticks (demoEnv serveChanging)
        (demoLister (fun _ => false) ["pub/"] none 0) 0).2.2 9 rfl⟩

/-- The task started with `-refresh-interval=0`: after the first cycle (9
moves) it never moves again; after 40 moves it is in the same state, one cycle
begun and no tick received. -/
theorem task_without_ticker_example :
    (taskRun (demoEnvNoTicker serveChanging) 40
        (TaskState.initial (demoLister (fun _ => false) ["pub/"] none 0) 0)).snapshot
      = (some { Repositories := [{ Name := "pub/b", Tags := ["v1", "v2"] }] }, 6) ∧
    (taskRun (demoEnvNoTicker serveChanging) 40
        (TaskState.initial (demoLister (fun _ => false) ["pub/"] none 0) 0)).world = 7 ∧
    cyclesStarted (taskRun (demoEnvNoTicker serveChanging) 40
        (TaskState.initial (demoLister (fun _ => false) ["pub/"] none 0) 0)).trace = 1 ∧
    ticksReceived (taskRun (demoEnvNoTicker serveChanging) 40
        (TaskState.initial (demoLister (fun _ => false) ["pub/"] none 0) 0)).trace = 0 := by
  refine ⟨?_, ?_, ?_, ?_⟩ <;> decide

end Registryauth
